import Mathlib

/-!
Verification of the statement-binding core of the `bob` SQL builder
(`stmt_bound.go`) and the sqlite `SelectQuery.WriteSQL` renderer.

The Go code is shallowly embedded: reflection values become ordered
association lists, the `[]any` placeholder arguments of a prepared query
become an inductive `Placeholder` type, Go `(T, error)` returns become
`Except`/`Outcome`, and a Go runtime panic (such as an out-of-range
`reflect.Value.Field` index) becomes the explicit outcome `panicked`.
-/

set_option autoImplicit false

namespace Bob

/-- A database value stored in a struct field.  Only the distinctions the
claims need are modelled: integers and strings suffice for the spec's
examples. -/
inductive Value where
  | vInt (n : Int)
  | vStr (s : String)
deriving DecidableEq, Repr

/-- One element of the `[]any` argument list a rendered query reports.
`namedArg` models `bob.namedArg` (a named placeholder), `named` models the
`bob.named` struct holding a list of names (these two types live outside
`src/`; spec section 3: a placeholder descriptor is either named or
anonymous).  `other` stands for any other value stored in the `[]any`
slice, i.e. a purely positional placeholder. -/
inductive Placeholder where
  | namedArg (name : String)
  | named (names : List String)
  | other
deriving DecidableEq, Repr

/-- The error values the embedded code can return.  `objectIsNil` is the
`errors.New("object is nil")` of `toArgs`, `missingArg` is
`MissingArgError`, `namedArgRequired` is `NamedArgRequiredError` (carrying
the offending descriptor), and `stmtErr` is the error wrapped by an
`errStmt` handle. -/
inductive GoError where
  | objectIsNil
  | missingArg (name : String)
  | namedArgRequired (p : Placeholder)
  | stmtErr (msg : String)
deriving DecidableEq, Repr

/-- The result of running a piece of Go code that returns `(α, error)` and
may also panic at runtime.  A panic (e.g. `reflect.Value.Field` with an
index out of range, or a nil-pointer dereference) aborts the call without
returning, so it is a third outcome distinct from any returned error. -/
inductive Outcome (α : Type) where
  | ok (a : α)
  | err (e : GoError)
  | panicked
deriving DecidableEq, Repr

/-- `structBinder[T]` from `stmt_bound.go`: the parallel `args` and
`fields` string slices. -/
structure StructBinder where
  args : List String
  fields : List String
deriving DecidableEq, Repr

/-- A Go struct value as seen by reflection: its fields in declared order,
each a (name, value) pair.  `val.Field(i)` is entry `i`; reflection panics
when `i` is out of range. -/
abbrev StructVal := List (String × Value)

/-- The argument `arg T` of `toArgs`: either a plain struct value or a
pointer to one (possibly nil), mirroring the
`val.Kind() == reflect.Pointer` test. -/
inductive GoVal where
  | direct (v : StructVal)
  | ptr (v : Option StructVal)
deriving DecidableEq, Repr

/-- The `ArgLoop` of `toArgs` (`stmt_bound.go` lines 29-39).  For each
`argName` at position `index` in `b.args`, the inner loop scans `b.fields`
for an equal field name; the loop variable for the matched position is
discarded (`for _, fieldName := range b.fields`), and on a match the code
reads `val.Field(index)` — the OUTER index — so the scan is only a
membership test.  `val.Field(index)` with `index ≥ NumField` is a
reflection panic. -/
def toArgsLoop (fields : List String) (val : StructVal) (index : Nat) :
    List String → Outcome (List Value)
  | [] => .ok []
  | argName :: rest =>
    if fields.contains argName then
      match val[index]? with
      | some fld =>
        match toArgsLoop fields val (index + 1) rest with
        | .ok vs => .ok (fld.2 :: vs)
        | .err e => .err e
        | .panicked => .panicked
      | none => .panicked
    else .err (.missingArg argName)

/-- `structBinder.toArgs` (`stmt_bound.go` lines 18-42): nil-pointer check
and dereference, then the extraction loop. -/
def StructBinder.toArgs (b : StructBinder) (arg : GoVal) : Outcome (List Value) :=
  match arg with
  | .direct v => toArgsLoop b.fields v 0 b.args
  | .ptr none => .err .objectIsNil
  | .ptr (some v) => toArgsLoop b.fields v 0 b.args

/-- First loop of `makeStructBinder` (`stmt_bound.go` lines 45-58): turn
the `[]any` argument list into the list of placeholder names, failing with
`NamedArgRequiredError{arg}` at the first entry that is neither a
`namedArg` nor a `named` with exactly one name. -/
def argPositionsOf : List Placeholder → Except GoError (List String)
  | [] => .ok []
  | .namedArg n :: rest =>
    match argPositionsOf rest with
    | .ok ns => .ok (n :: ns)
    | .error e => .error e
  | .named [n] :: rest =>
    match argPositionsOf rest with
    | .ok ns => .ok (n :: ns)
    | .error e => .error e
  | p :: _ => .error (.namedArgRequired p)

/-- Second loop of `makeStructBinder` (`stmt_bound.go` lines 64-72): check
that every placeholder name occurs among the field names, failing with
`MissingArgError` at the first name that does not. -/
def checkArgPositions (fieldPositions : List String) : List String → Except GoError Unit
  | [] => .ok ()
  | n :: rest =>
    if fieldPositions.contains n then checkArgPositions fieldPositions rest
    else .error (.missingArg n)

/-- `makeStructBinder[Arg]` (`stmt_bound.go` lines 44-78).  The Go
function obtains `fieldPositions` from
`mappings.GetMappings(reflect.TypeOf(x)).All`, whose code is not under
`src/`.  Modelled from the spec: section 4.1's field mapper returns the
argument type's ordered list of bindable field names, so the argument type
is represented here by that list, passed explicitly.  Note that the
constructed binder stores the FULL field list as `fields`, not the
per-placeholder resolved names. -/
def makeStructBinder (fieldPositions : List String) (args : List Placeholder) :
    Except GoError StructBinder :=
  match argPositionsOf args with
  | .error e => .error e
  | .ok argPositions =>
    match checkArgPositions fieldPositions argPositions with
    | .error e => .error e
    | .ok _ => .ok { args := argPositions, fields := fieldPositions }

/-- The classification the first loop of `makeStructBinder` applies to one
placeholder: accepted iff it is a `namedArg` or a one-name `named`. -/
def Placeholder.isNamedForBinding : Placeholder → Bool
  | .namedArg _ => true
  | .named names => names.length == 1
  | .other => false

/-! ## Statements, transactions and the bound wrappers

The types `Statement`, `stdStmt`, `errStmt`, `Stmt`, `QueryStmt` and `Tx`
live in files of this repository that are not under `src/`; only
`stmt_bound.go` uses them here.  They are modelled from the spec:
sections 3, 4.5 and 6 — the underlying handle is either a native prepared
statement (`stdStmt`, wrapping a possibly nil `*sql.Stmt`) or a synthetic
error placeholder (`errStmt`) whose every operation fails with its wrapped
error at execution time; a transaction can re-prepare a (possibly nil)
native statement against itself (`tx.wrapped.StmtContext`).  A native
`*sql.Stmt` is represented by its execution behaviour, and a nil one by
`none` (executing it is a nil-pointer panic). -/

/-- A native prepared statement, modelled by what executing it with a
positional value list returns. -/
abbrev NativeStmt (α : Type) := List Value → Outcome α

/-- The `Statement` interface as the spec describes it: a native prepared
statement or an error placeholder. -/
inductive Statement (α : Type) where
  | stdStmt (handle : Option (NativeStmt α))
  | errStmt (msg : String)

/-- Modelled from the spec (section 6): executing a prepared handle with
positional values.  An `errStmt` fails with its wrapped error; a nil
native statement is a nil-pointer dereference, i.e. a panic. -/
def Statement.execHandle {α : Type} : Statement α → List Value → Outcome α
  | .stdStmt (some f), vs => f vs
  | .stdStmt none, _ => .panicked
  | .errStmt msg, _ => .err (.stmtErr msg)

/-- Modelled from the spec (section 6): a transaction handle capable of
re-preparing a (possibly nil) native statement against itself —
`tx.wrapped.StmtContext(ctx, stmt)`. -/
structure Tx (α : Type) where
  stmtContext : Option (NativeStmt α) → Option (NativeStmt α)

/-- The `stmt` field of `BoundStmt` (`bob.Stmt`, not under `src/`):
modelled by the underlying handle it executes through. -/
structure Stmt (α : Type) where
  stmt : Statement α

/-- Modelled from the spec (section 6): `Stmt.Exec` forwards the
positional values to the underlying prepared handle. -/
def Stmt.Exec {α : Type} (s : Stmt α) (vs : List Value) : Outcome α :=
  s.stmt.execHandle vs

/-- `BoundStmt[Arg]` (`stmt_bound.go` lines 100-103). -/
structure BoundStmt (α : Type) where
  stmt : Stmt α
  binder : StructBinder

/-- `BoundStmt.InTx` (`stmt_bound.go` lines 106-116), translated exactly
as written: the replacement handle defaults to
`errStmt{errors.New("stmt is not an stdStmt")}`, and the branch that
re-prepares runs when the type assertion `s.stmt.stmt.(stdStmt)` FAILS
(`!ok`), in which case `std` is the zero-value `stdStmt` and
`std.Stmt` is nil. -/
def BoundStmt.InTx {α : Type} (s : BoundStmt α) (tx : Tx α) : BoundStmt α :=
  let newStmt : Statement α :=
    match s.stmt.stmt with
    | .stdStmt _ => .errStmt "stmt is not an stdStmt"
    | .errStmt _ => .stdStmt (tx.stmtContext none)
  { s with stmt := { s.stmt with stmt := newStmt } }

/-- `BoundStmt.Exec` (`stmt_bound.go` lines 124-131). -/
def BoundStmt.Exec {α : Type} (s : BoundStmt α) (arg : GoVal) : Outcome α :=
  match s.binder.toArgs arg with
  | .ok args => s.stmt.Exec args
  | .err e => .err e
  | .panicked => .panicked

/-- `QueryStmt[T, Ts]` (not under `src/`): modelled from the spec
(section 6) by its underlying handle plus the behaviour of its
fetch-one/fetch-all/cursor operations, each of which executes through the
current handle. -/
structure QueryStmt (α T Ts C : Type) where
  stmt : Statement α
  oneFn : Statement α → List Value → Outcome T
  allFn : Statement α → List Value → Outcome Ts
  cursorFn : Statement α → List Value → Outcome C

/-- Modelled from the spec (section 6): the underlying fetch-one. -/
def QueryStmt.One {α T Ts C : Type} (s : QueryStmt α T Ts C) (vs : List Value) : Outcome T :=
  s.oneFn s.stmt vs

/-- Modelled from the spec (section 6): the underlying fetch-all. -/
def QueryStmt.All {α T Ts C : Type} (s : QueryStmt α T Ts C) (vs : List Value) : Outcome Ts :=
  s.allFn s.stmt vs

/-- Modelled from the spec (section 6): the underlying cursor fetch. -/
def QueryStmt.Cursor {α T Ts C : Type} (s : QueryStmt α T Ts C) (vs : List Value) : Outcome C :=
  s.cursorFn s.stmt vs

/-- `BoundQueryStmt[Arg, T, Ts]` (`stmt_bound.go` lines 154-157): an
embedded `QueryStmt` plus the binder. -/
structure BoundQueryStmt (α T Ts C : Type) where
  queryStmt : QueryStmt α T Ts C
  binder : StructBinder

/-- `BoundQueryStmt.InTx` (`stmt_bound.go` lines 160-170), the same
inverted-assertion shape as `BoundStmt.InTx`. -/
def BoundQueryStmt.InTx {α T Ts C : Type} (s : BoundQueryStmt α T Ts C) (tx : Tx α) :
    BoundQueryStmt α T Ts C :=
  let newStmt : Statement α :=
    match s.queryStmt.stmt with
    | .stdStmt _ => .errStmt "stmt is not an stdStmt"
    | .errStmt _ => .stdStmt (tx.stmtContext none)
  { s with queryStmt := { s.queryStmt with stmt := newStmt } }

/-- `BoundQueryStmt.One` (`stmt_bound.go` lines 172-180); the Go
`var t T; return t, err` branch is the `err` outcome. -/
def BoundQueryStmt.One {α T Ts C : Type} (s : BoundQueryStmt α T Ts C) (arg : GoVal) :
    Outcome T :=
  match s.binder.toArgs arg with
  | .ok args => s.queryStmt.One args
  | .err e => .err e
  | .panicked => .panicked

/-- `BoundQueryStmt.All` (`stmt_bound.go` lines 182-189). -/
def BoundQueryStmt.All {α T Ts C : Type} (s : BoundQueryStmt α T Ts C) (arg : GoVal) :
    Outcome Ts :=
  match s.binder.toArgs arg with
  | .ok args => s.queryStmt.All args
  | .err e => .err e
  | .panicked => .panicked

/-- `BoundQueryStmt.Cursor` (`stmt_bound.go` lines 191-197). -/
def BoundQueryStmt.Cursor {α T Ts C : Type} (s : BoundQueryStmt α T Ts C) (arg : GoVal) :
    Outcome C :=
  match s.binder.toArgs arg with
  | .ok args => s.queryStmt.Cursor args
  | .err e => .err e
  | .panicked => .panicked

/-! ## The sqlite `SelectQuery.WriteSQL` renderer

The clause types (`clause.With`, `clause.Select`, ...) and
`bob.ExpressIf` are outside `src/`.  Modelled from the spec (section 6):
a render operation, given a query expression and a starting placeholder
offset, writes SQL text to an output sink and returns the ordered list of
argument placeholders used plus any rendering error.  The written text is
irrelevant to the placeholder list, so a clause is modelled by the Boolean
content test `WriteSQL` applies to it together with its render
behaviour. -/

/-- Modelled from the spec (section 6): `bob.ExpressIf` renders the
expression at the given start offset when the condition holds and renders
nothing (no placeholders) otherwise; prefix and suffix strings only affect
the text output. -/
def ExpressIf (render : Nat → Except GoError (List Placeholder)) (start : Nat)
    (cond : Bool) : Except GoError (List Placeholder) :=
  if cond then render start else .ok []

/-- One clause slot of a `SelectQuery`: `hasContent` is the value of the
content test `WriteSQL` passes for it (`len(s.With.CTEs) > 0`,
`s.Combine.Query != nil`, ...), and `render` its rendering behaviour. -/
structure RenderClause where
  hasContent : Bool
  render : Nat → Except GoError (List Placeholder)

/-- The sqlite `SelectQuery` (`part_000` lines 25-37): its eleven embedded
clauses. -/
structure SelectQuery where
  withClause : RenderClause
  selectClause : RenderClause
  fromClause : RenderClause
  whereClause : RenderClause
  groupByClause : RenderClause
  havingClause : RenderClause
  windowsClause : RenderClause
  combineClause : RenderClause
  orderByClause : RenderClause
  limitClause : RenderClause
  offsetClause : RenderClause

/-- `SelectQuery.WriteSQL` (`part_000` lines 39-119).  The Go code keeps
an accumulator `args`, calls `bob.ExpressIf` for each clause with offset
`start+len(args)`, and appends the returned placeholders; the `Select` and
`From` conditions are the literal `true`.  The accumulator is inlined as
explicit concatenations. -/
def SelectQuery.WriteSQL (s : SelectQuery) (start : Nat) :
    Except GoError (List Placeholder) := do
  let withArgs ← ExpressIf s.withClause.render start s.withClause.hasContent
  let selArgs ← ExpressIf s.selectClause.render (start + withArgs.length) true
  let fromArgs ← ExpressIf s.fromClause.render
    (start + (withArgs ++ selArgs).length) true
  let whereArgs ← ExpressIf s.whereClause.render
    (start + (withArgs ++ selArgs ++ fromArgs).length) s.whereClause.hasContent
  let groupByArgs ← ExpressIf s.groupByClause.render
    (start + (withArgs ++ selArgs ++ fromArgs ++ whereArgs).length)
    s.groupByClause.hasContent
  let havingArgs ← ExpressIf s.havingClause.render
    (start + (withArgs ++ selArgs ++ fromArgs ++ whereArgs ++ groupByArgs).length)
    s.havingClause.hasContent
  let windowArgs ← ExpressIf s.windowsClause.render
    (start + (withArgs ++ selArgs ++ fromArgs ++ whereArgs ++ groupByArgs
      ++ havingArgs).length)
    s.windowsClause.hasContent
  let combineArgs ← ExpressIf s.combineClause.render
    (start + (withArgs ++ selArgs ++ fromArgs ++ whereArgs ++ groupByArgs
      ++ havingArgs ++ windowArgs).length)
    s.combineClause.hasContent
  let orderArgs ← ExpressIf s.orderByClause.render
    (start + (withArgs ++ selArgs ++ fromArgs ++ whereArgs ++ groupByArgs
      ++ havingArgs ++ windowArgs ++ combineArgs).length)
    s.orderByClause.hasContent
  let limitArgs ← ExpressIf s.limitClause.render
    (start + (withArgs ++ selArgs ++ fromArgs ++ whereArgs ++ groupByArgs
      ++ havingArgs ++ windowArgs ++ combineArgs ++ orderArgs).length)
    s.limitClause.hasContent
  let offsetArgs ← ExpressIf s.offsetClause.render
    (start + (withArgs ++ selArgs ++ fromArgs ++ whereArgs ++ groupByArgs
      ++ havingArgs ++ windowArgs ++ combineArgs ++ orderArgs ++ limitArgs).length)
    s.offsetClause.hasContent
  return withArgs ++ selArgs ++ fromArgs ++ whereArgs ++ groupByArgs
    ++ havingArgs ++ windowArgs ++ combineArgs ++ orderArgs ++ limitArgs
    ++ offsetArgs

/-- The clauses of a `SelectQuery` in rendering order, each paired with
the condition `WriteSQL` passes for it. -/
def SelectQuery.clauseSeq (s : SelectQuery) :
    List (Bool × (Nat → Except GoError (List Placeholder))) :=
  [(s.withClause.hasContent, s.withClause.render),
   (true, s.selectClause.render),
   (true, s.fromClause.render),
   (s.whereClause.hasContent, s.whereClause.render),
   (s.groupByClause.hasContent, s.groupByClause.render),
   (s.havingClause.hasContent, s.havingClause.render),
   (s.windowsClause.hasContent, s.windowsClause.render),
   (s.combineClause.hasContent, s.combineClause.render),
   (s.orderByClause.hasContent, s.orderByClause.render),
   (s.limitClause.hasContent, s.limitClause.render),
   (s.offsetClause.hasContent, s.offsetClause.render)]

/-- The spec's words, as a definition of its own: render a sequence of
clauses left to right, pass each clause a starting offset equal to the
initial offset plus the number of placeholders accumulated so far, and
return the concatenation of the returned placeholder lists in order. -/
def renderClauses (start : Nat) :
    List (Bool × (Nat → Except GoError (List Placeholder))) →
      Except GoError (List Placeholder)
  | [] => .ok []
  | (cond, render) :: rest => do
    let a ← ExpressIf render start cond
    let restArgs ← renderClauses (start + a.length) rest
    return a ++ restArgs

/-! ## Helper lemmas -/

theorem exceptBindOk {ε α β : Type} (a : α) (f : α → Except ε β) :
    (Except.ok a : Except ε α) >>= f = f a := rfl

theorem exceptBindErr {ε α β : Type} (e : ε) (f : α → Except ε β) :
    (Except.error e : Except ε α) >>= f = Except.error e := rfl

theorem exceptBindPure {ε α β : Type} (a : α) (f : α → Except ε β) :
    (pure a : Except ε α) >>= f = f a := rfl

theorem argPositionsOf_length (phs : List Placeholder) (ns : List String)
    (h : argPositionsOf phs = .ok ns) : ns.length = phs.length := by
  induction phs generalizing ns with
  | nil =>
    simp only [argPositionsOf] at h
    cases h
    rfl
  | cons p rest ih =>
    cases p with
    | namedArg n =>
      simp only [argPositionsOf] at h
      cases hr : argPositionsOf rest with
      | ok ns0 =>
        rw [hr] at h
        cases h
        simp [ih ns0 hr]
      | error e => rw [hr] at h; cases h
    | named names =>
      match names with
      | [] => simp only [argPositionsOf] at h; cases h
      | [n] =>
        simp only [argPositionsOf] at h
        cases hr : argPositionsOf rest with
        | ok ns0 =>
          rw [hr] at h
          cases h
          simp [ih ns0 hr]
        | error e => rw [hr] at h; cases h
      | n1 :: n2 :: t => simp only [argPositionsOf] at h; cases h
    | other => simp only [argPositionsOf] at h; cases h

theorem argPositionsOf_error_of_anon (phs : List Placeholder) (p : Placeholder)
    (h : phs.find? (fun q => !q.isNamedForBinding) = some p) :
    argPositionsOf phs = .error (.namedArgRequired p) := by
  induction phs with
  | nil => simp [List.find?] at h
  | cons q rest ih =>
    cases hq : q.isNamedForBinding with
    | true =>
      rw [List.find?_cons, hq] at h
      simp only [Bool.not_true] at h
      have herr := ih h
      cases q with
      | namedArg n => simp [argPositionsOf, herr]
      | named names =>
        match names with
        | [n] => simp [argPositionsOf, herr]
        | [] => simp [Placeholder.isNamedForBinding] at hq
        | n1 :: n2 :: t => simp [Placeholder.isNamedForBinding] at hq
      | other => simp [Placeholder.isNamedForBinding] at hq
    | false =>
      rw [List.find?_cons, hq] at h
      simp only [Bool.not_false, Option.some.injEq] at h
      subst h
      cases q with
      | namedArg n => simp [Placeholder.isNamedForBinding] at hq
      | named names =>
        match names with
        | [] => simp [argPositionsOf]
        | [n] => simp [Placeholder.isNamedForBinding] at hq
        | n1 :: n2 :: t => simp [argPositionsOf]
      | other => simp [argPositionsOf]

theorem checkArgPositions_ok_of_all (fieldPositions : List String)
    (ns : List String) (h : ∀ n ∈ ns, fieldPositions.contains n = true) :
    checkArgPositions fieldPositions ns = .ok () := by
  induction ns with
  | nil => rfl
  | cons n rest ih =>
    have hn : fieldPositions.contains n = true := h n (by simp)
    simp only [checkArgPositions, hn, if_true]
    exact ih fun m hm => h m (by simp [hm])

theorem checkArgPositions_all_of_ok (fieldPositions : List String)
    (ns : List String) (h : checkArgPositions fieldPositions ns = .ok ()) :
    ∀ n ∈ ns, fieldPositions.contains n = true := by
  induction ns with
  | nil => intro n hn; simp at hn
  | cons m rest ih =>
    intro n hn
    cases hm : fieldPositions.contains m with
    | true =>
      simp only [checkArgPositions, hm, if_true] at h
      rcases List.mem_cons.mp hn with hn1 | hn2
      · rwa [hn1]
      · exact ih h n hn2
    | false =>
      simp only [checkArgPositions, hm, Bool.false_eq_true, if_false] at h
      cases h

theorem checkArgPositions_error_of_find (fieldPositions : List String)
    (ns : List String) (bad : String)
    (h : ns.find? (fun n => !fieldPositions.contains n) = some bad) :
    checkArgPositions fieldPositions ns = .error (.missingArg bad) := by
  induction ns with
  | nil => simp [List.find?] at h
  | cons n rest ih =>
    cases hn : fieldPositions.contains n with
    | true =>
      rw [List.find?_cons, hn] at h
      simp only [Bool.not_true] at h
      simp only [checkArgPositions, hn, if_true]
      exact ih h
    | false =>
      rw [List.find?_cons, hn] at h
      simp only [Bool.not_false, Option.some.injEq] at h
      subst h
      simp only [checkArgPositions, hn, Bool.false_eq_true, if_false]

theorem toArgsLoop_ne_missingArg (fields : List String) (v : StructVal)
    (ns : List String) (hall : ∀ n ∈ ns, fields.contains n = true)
    (i : Nat) (m : String) :
    toArgsLoop fields v i ns ≠ .err (.missingArg m) := by
  induction ns generalizing i with
  | nil => simp [toArgsLoop]
  | cons a rest ih =>
    have ha : fields.contains a = true := hall a (by simp)
    have hrest : ∀ n ∈ rest, fields.contains n = true :=
      fun n hn => hall n (by simp [hn])
    simp only [toArgsLoop, ha, if_true]
    cases hv : v[i]? with
    | none => simp
    | some fld =>
      cases hr : toArgsLoop fields v (i + 1) rest with
      | ok vs => simp
      | panicked => simp
      | err e =>
        have hne := ih hrest (i + 1)
        rw [hr] at hne
        intro hcontra
        apply hne
        cases hcontra
        rfl

theorem makeStructBinder_ok_inv (fieldPositions : List String)
    (phs : List Placeholder) (b : StructBinder)
    (h : makeStructBinder fieldPositions phs = .ok b) :
    argPositionsOf phs = .ok b.args ∧ b.fields = fieldPositions ∧
      checkArgPositions fieldPositions b.args = .ok () := by
  unfold makeStructBinder at h
  split at h
  next e he => cases h
  next ns ha =>
    split at h
    next e hc => cases h
    next u hc =>
      cases h
      refine ⟨ha, rfl, ?_⟩
      cases u
      exact hc

/-! ## Claim theorems -/

/-- Claim C1: the spec's example run.  Placeholders `["id","name"]`
against a type whose declared field order is `{name, id}` build the binder
`args = ["id","name"]`, `fields = ["name","id"]`, and on the argument
`{id: 7, name: "x"}` `toArgs` returns `["x", 7]` — the field at each
placeholder's ordinal position, NOT the field named by the placeholder —
which differs from the `[7, "x"]` the claim states. -/
theorem C1_toArgs_positional_eval :
    makeStructBinder ["name", "id"] [.namedArg "id", .namedArg "name"]
        = .ok ⟨["id", "name"], ["name", "id"]⟩ ∧
      StructBinder.toArgs ⟨["id", "name"], ["name", "id"]⟩
          (.direct [("name", .vStr "x"), ("id", .vInt 7)])
        = .ok [.vStr "x", .vInt 7] ∧
      (Outcome.ok [Value.vStr "x", Value.vInt 7]
        ≠ Outcome.ok [Value.vInt 7, Value.vStr "x"]) :=
  ⟨rfl, rfl, by decide⟩

/-- Claim C2: evaluation of `InTx` as written.  A bound statement whose
underlying handle IS a live native prepared statement gets an `errStmt`
derived handle (and its `Exec` then fails with that error), while a bound
statement whose handle is an `errStmt` placeholder gets "re-prepared" from
the nil zero-value native statement — the opposite of the claim. -/
theorem C2_inTx_inverted_eval :
    ((BoundStmt.InTx ⟨⟨.stdStmt (some fun _ => .ok (0 : Nat))⟩, ⟨[], []⟩⟩
          ⟨fun h => h⟩).stmt.stmt
        = .errStmt "stmt is not an stdStmt") ∧
      ((BoundQueryStmt.InTx
            (⟨⟨.stdStmt (some fun _ => .ok (0 : Nat)),
                fun _ _ => .ok 0, fun _ _ => .ok ([] : List Nat), fun _ _ => .ok 0⟩,
              ⟨[], []⟩⟩ : BoundQueryStmt Nat Nat (List Nat) Nat)
          ⟨fun h => h⟩).queryStmt.stmt
        = .errStmt "stmt is not an stdStmt") ∧
      ((BoundStmt.InTx ⟨⟨.errStmt "prior bind error"⟩, ⟨[], []⟩⟩
          (⟨fun _ => none⟩ : Tx Nat)).stmt.stmt
        = .stdStmt none) ∧
      ((BoundStmt.InTx ⟨⟨.stdStmt (some fun _ => .ok (0 : Nat))⟩, ⟨[], []⟩⟩
          ⟨fun h => h⟩).Exec (.direct [])
        = .err (.stmtErr "stmt is not an stdStmt")) :=
  ⟨rfl, rfl, rfl, rfl⟩

/-- Claim C3 counterexample: one placeholder over a two-field type.
Construction succeeds, yet `binder.fields` is the type's FULL field list,
so `len(binder.fields) = 2` while the placeholder count is `1`: the
claimed `len(binder.args) == len(binder.fields) == placeholder count`
fails. -/
theorem C3_counterexample :
    makeStructBinder ["name", "id"] [.namedArg "id"]
        = .ok ⟨["id"], ["name", "id"]⟩ ∧
      ¬ ((["name", "id"] : List String).length
          = ([Placeholder.namedArg "id"] : List Placeholder).length) :=
  ⟨rfl, by decide⟩

/-- Claim C3 (amended): when every placeholder name has a same-named
field, construction succeeds; the binder stores the placeholder names as
`args` (so `len(args)` = placeholder count) and the argument type's full
field-name list as `fields` (so `len(fields)` = the type's field count,
not the placeholder count). -/
theorem C3_construction_shape (fieldPositions : List String)
    (phs : List Placeholder) (names : List String)
    (h1 : argPositionsOf phs = .ok names)
    (h2 : ∀ n ∈ names, fieldPositions.contains n = true) :
    makeStructBinder fieldPositions phs = .ok ⟨names, fieldPositions⟩ ∧
      names.length = phs.length := by
  constructor
  · simp only [makeStructBinder, h1,
      checkArgPositions_ok_of_all fieldPositions names h2]
  · exact argPositionsOf_length phs names h1

/-- Witness for the amended C3 at the spec's example inputs. -/
theorem C3_construction_shape_witness :
    makeStructBinder ["name", "id"] [.namedArg "id", .namedArg "name"]
        = .ok ⟨["id", "name"], ["name", "id"]⟩ ∧
      (["id", "name"] : List String).length
        = ([Placeholder.namedArg "id", Placeholder.namedArg "name"]
            : List Placeholder).length :=
  C3_construction_shape ["name", "id"] [.namedArg "id", .namedArg "name"]
    ["id", "name"] rfl (by decide)

/-- Claim C4: if the placeholder list contains an anonymous entry (one
that is neither a `namedArg` nor a one-name `named`), `makeStructBinder`
fails with `NamedArgRequiredError` carrying the first such entry,
whatever the field list and the other placeholders are. -/
theorem C4_anonymous_rejected (fieldPositions : List String)
    (phs : List Placeholder) (p : Placeholder)
    (h : phs.find? (fun q => !q.isNamedForBinding) = some p) :
    makeStructBinder fieldPositions phs = .error (.namedArgRequired p) := by
  simp only [makeStructBinder, argPositionsOf_error_of_anon phs p h]

/-- Witness for C4: a valid named placeholder followed by an anonymous
one is rejected with the anonymous descriptor. -/
theorem C4_anonymous_rejected_witness :
    makeStructBinder ["a"] [.namedArg "a", .other]
      = .error (.namedArgRequired .other) :=
  C4_anonymous_rejected ["a"] [.namedArg "a", .other] .other rfl

/-- Claim C5: with every placeholder named, if some placeholder name
matches no field name (exact string match), `makeStructBinder` fails with
`MissingArgError` carrying the first unmatched name in placeholder
order. -/
theorem C5_missing_field_reported (fieldPositions : List String)
    (phs : List Placeholder) (names : List String) (bad : String)
    (h1 : argPositionsOf phs = .ok names)
    (h2 : names.find? (fun n => !fieldPositions.contains n) = some bad) :
    makeStructBinder fieldPositions phs = .error (.missingArg bad) := by
  simp only [makeStructBinder, h1,
    checkArgPositions_error_of_find fieldPositions names bad h2]

/-- Witness for C5: the spec's example `["id","missing"]` against fields
`{name, id}` fails with `MissingArgError{Name:"missing"}`. -/
theorem C5_missing_field_reported_witness :
    makeStructBinder ["name", "id"] [.namedArg "id", .namedArg "missing"]
      = .error (.missingArg "missing") :=
  C5_missing_field_reported ["name", "id"] [.namedArg "id", .namedArg "missing"]
    ["id", "missing"] "missing" rfl rfl

/-- Claim C6: `toArgs` on a nil pointer argument returns the
"object is nil" error, for every binder — no field is read and no partial
result is produced. -/
theorem C6_nil_pointer_error (b : StructBinder) :
    b.toArgs (.ptr none) = .err .objectIsNil := rfl

/-- Claim C8: for a binder built by `makeStructBinder` and a non-null
argument value of the binder's argument type, the extraction-time
`MissingArgError` branch of `toArgs` is unreachable: construction already
checked every placeholder name against the field list. -/
theorem C8_extraction_missing_unreachable (fieldPositions : List String)
    (phs : List Placeholder) (b : StructBinder)
    (hb : makeStructBinder fieldPositions phs = .ok b)
    (v : StructVal) (_hv : v.map Prod.fst = fieldPositions)
    (arg : GoVal) (hnn : arg = .direct v ∨ arg = .ptr (some v))
    (name : String) :
    b.toArgs arg ≠ .err (.missingArg name) := by
  obtain ⟨ha, hf, hc⟩ := makeStructBinder_ok_inv fieldPositions phs b hb
  have hall : ∀ n ∈ b.args, b.fields.contains n = true := by
    rw [hf]
    exact checkArgPositions_all_of_ok fieldPositions b.args hc
  rcases hnn with h1 | h1 <;> subst h1 <;>
    exact toArgsLoop_ne_missingArg b.fields v b.args hall 0 name

/-- Witness for C8 at a concrete binder and value. -/
theorem C8_extraction_missing_unreachable_witness :
    StructBinder.toArgs ⟨["id"], ["id"]⟩ (.direct [("id", .vInt 7)])
      ≠ .err (.missingArg "id") :=
  C8_extraction_missing_unreachable ["id"] [.namedArg "id"] ⟨["id"], ["id"]⟩
    rfl [("id", .vInt 7)] rfl (.direct [("id", .vInt 7)]) (Or.inl rfl) "id"

/-- Claim C10: evaluation of the out-of-range case.  Repeating a valid
placeholder name makes `makeStructBinder` succeed with more placeholders
than the type has fields, and `toArgs` then reads `val.Field(1)` of a
one-field struct — a reflection panic, not an in-range access. -/
theorem C10_toArgs_oob_eval :
    makeStructBinder ["id"] [.namedArg "id", .namedArg "id"]
        = .ok ⟨["id", "id"], ["id"]⟩ ∧
      StructBinder.toArgs ⟨["id", "id"], ["id"]⟩ (.direct [("id", .vInt 7)])
        = .panicked :=
  ⟨rfl, rfl⟩

/-- Claim C7: every bound operation first runs the binder.  If `toArgs`
fails, the operation returns exactly that error for EVERY underlying
statement behaviour (so the underlying prepared statement is never
consulted); if `toArgs` succeeds, the operation returns exactly what the
underlying operation returns on the extracted positional values. -/
theorem C7_short_circuit_forward {α T Ts C : Type}
    (binder : StructBinder) (arg : GoVal) :
    (∀ e, binder.toArgs arg = .err e →
      ∀ (st : Stmt α) (qs : QueryStmt α T Ts C),
        BoundStmt.Exec ⟨st, binder⟩ arg = .err e ∧
        BoundQueryStmt.One ⟨qs, binder⟩ arg = .err e ∧
        BoundQueryStmt.All ⟨qs, binder⟩ arg = .err e ∧
        BoundQueryStmt.Cursor ⟨qs, binder⟩ arg = .err e) ∧
    (∀ vs, binder.toArgs arg = .ok vs →
      ∀ (st : Stmt α) (qs : QueryStmt α T Ts C),
        BoundStmt.Exec ⟨st, binder⟩ arg = st.Exec vs ∧
        BoundQueryStmt.One ⟨qs, binder⟩ arg = qs.One vs ∧
        BoundQueryStmt.All ⟨qs, binder⟩ arg = qs.All vs ∧
        BoundQueryStmt.Cursor ⟨qs, binder⟩ arg = qs.Cursor vs) := by
  constructor
  · intro e he st qs
    refine ⟨?_, ?_, ?_, ?_⟩ <;>
      simp only [BoundStmt.Exec, BoundQueryStmt.One, BoundQueryStmt.All,
        BoundQueryStmt.Cursor, he]
  · intro vs hvs st qs
    refine ⟨?_, ?_, ?_, ?_⟩ <;>
      simp only [BoundStmt.Exec, BoundQueryStmt.One, BoundQueryStmt.All,
        BoundQueryStmt.Cursor, hvs]

/-- Witness for C7: a nil-pointer argument short-circuits `Exec` with the
nil-object error even though the underlying statement would succeed. -/
theorem C7_short_circuit_forward_witness :
    BoundStmt.Exec ⟨⟨.stdStmt (some fun _ => .ok (0 : Nat))⟩, ⟨["id"], ["id"]⟩⟩
        (.ptr none)
      = .err .objectIsNil :=
  ((@C7_short_circuit_forward Nat Nat (List Nat) Nat
      ⟨["id"], ["id"]⟩ (.ptr none)).1 .objectIsNil rfl
    ⟨.stdStmt (some fun _ => .ok (0 : Nat))⟩
    ⟨.stdStmt (some fun _ => .ok (0 : Nat)),
      fun _ _ => .ok 0, fun _ _ => .ok [], fun _ _ => .ok 0⟩).1

/-- Claim C9: `WriteSQL` renders the eleven clauses in their declared
order — With, Select, From, Where, GroupBy, Having, Windows, Combine,
OrderBy, Limit, Offset — passing each one a starting placeholder offset
equal to the initial offset plus the number of placeholders accumulated so
far, and returns the concatenation of the per-clause placeholder lists in
that order: it equals the spec-side sequential renderer `renderClauses`
applied to the clauses in rendering order. -/
theorem C9_writeSQL_order (s : SelectQuery) (start : Nat) :
    s.WriteSQL start = renderClauses start s.clauseSeq := by
  simp only [SelectQuery.WriteSQL, SelectQuery.clauseSeq, renderClauses]
  cases ExpressIf s.withClause.render start s.withClause.hasContent with
  | error e => rfl
  | ok a1 =>
    simp only [exceptBindOk]
    cases ExpressIf s.selectClause.render (start + a1.length) true with
    | error e => rfl
    | ok a2 =>
      simp only [exceptBindOk, List.append_assoc, List.length_append,
        Nat.add_assoc]
      cases ExpressIf s.fromClause.render (start + (a1.length + a2.length))
          true with
      | error e => rfl
      | ok a3 =>
        simp only [exceptBindOk, List.append_assoc, List.length_append,
          Nat.add_assoc]
        cases ExpressIf s.whereClause.render
            (start + (a1.length + (a2.length + a3.length)))
            s.whereClause.hasContent with
        | error e => rfl
        | ok a4 =>
          simp only [exceptBindOk, List.append_assoc, List.length_append,
            Nat.add_assoc]
          cases ExpressIf s.groupByClause.render
              (start + (a1.length + (a2.length + (a3.length + a4.length))))
              s.groupByClause.hasContent with
          | error e => rfl
          | ok a5 =>
            simp only [exceptBindOk, List.append_assoc, List.length_append,
              Nat.add_assoc]
            cases ExpressIf s.havingClause.render
                (start + (a1.length + (a2.length + (a3.length
                  + (a4.length + a5.length)))))
                s.havingClause.hasContent with
            | error e => rfl
            | ok a6 =>
              simp only [exceptBindOk, List.append_assoc, List.length_append,
                Nat.add_assoc]
              cases ExpressIf s.windowsClause.render
                  (start + (a1.length + (a2.length + (a3.length
                    + (a4.length + (a5.length + a6.length))))))
                  s.windowsClause.hasContent with
              | error e => rfl
              | ok a7 =>
                simp only [exceptBindOk, List.append_assoc, List.length_append,
                  Nat.add_assoc]
                cases ExpressIf s.combineClause.render
                    (start + (a1.length + (a2.length + (a3.length
                      + (a4.length + (a5.length + (a6.length + a7.length)))))))
                    s.combineClause.hasContent with
                | error e => rfl
                | ok a8 =>
                  simp only [exceptBindOk, List.append_assoc,
                    List.length_append, Nat.add_assoc]
                  cases ExpressIf s.orderByClause.render
                      (start + (a1.length + (a2.length + (a3.length
                        + (a4.length + (a5.length + (a6.length
                          + (a7.length + a8.length))))))))
                      s.orderByClause.hasContent with
                  | error e => rfl
                  | ok a9 =>
                    simp only [exceptBindOk, List.append_assoc,
                      List.length_append, Nat.add_assoc]
                    cases ExpressIf s.limitClause.render
                        (start + (a1.length + (a2.length + (a3.length
                          + (a4.length + (a5.length + (a6.length
                            + (a7.length + (a8.length + a9.length)))))))))
                        s.limitClause.hasContent with
                    | error e => rfl
                    | ok a10 =>
                      simp only [exceptBindOk, List.append_assoc,
                        List.length_append, Nat.add_assoc]
                      cases ExpressIf s.offsetClause.render
                          (start + (a1.length + (a2.length + (a3.length
                            + (a4.length + (a5.length + (a6.length
                              + (a7.length + (a8.length
                                + (a9.length + a10.length))))))))))
                          s.offsetClause.hasContent with
                      | error e => rfl
                      | ok a11 =>
                        simp only [exceptBindOk, exceptBindPure,
                          List.append_assoc, List.append_nil]

end Bob
